import Mathlib

/-!
# Verification of `adrest/auth.py`

A shallow embedding of the authentication gate of the `adrest` repository
(`src/adrest/auth.py`): the authenticator variants, the chain resolver
(`AuthenticatorMixin.authenticate`) and the rights gate
(`AuthenticatorMixin.check_rights`), together with theorems settling the
specification's claims about them.

Python strings are modelled as `List Char` (`Str`); Python `dict` / `META` /
`REQUEST` lookups as association-list lookup returning `Option Str`; Python
exceptions as `Except`.  External collaborators (Django's `authenticate`
credential validator, the CSRF middleware, the `AccessKey` token store) are
parameters of an `Env` record, exactly at the interface boundary the code
uses them.
-/

set_option autoImplicit false

/-- Python strings, modelled as lists of characters. -/
abbrev Str := List Char

/-- Association-list lookup, modelling Python `dict.get(k)` /
`'k' in d` + `d['k']`: `none` when the key is absent. -/
def alookup (l : List (Str × Str)) (k : Str) : Option Str :=
  match l with
  | [] => none
  | (k0, v0) :: rest => if k0 = k then some v0 else alookup rest k

/-- A Django user as the code consumes it: `user.username` and
`user.is_active` are the only attributes read. -/
structure User where
  username : Str
  is_active : Bool
deriving Repr, DecidableEq

/-- The inbound request, as consumed by `auth.py`:
`meta` is `request.META` (headers / WSGI environ),
`params` is `request.REQUEST` (merged query + body parameters),
`user` is the `request.user` slot (a pre-attached principal, or absent —
`getattr(request, 'user', None)` falsy is modelled as `none`). -/
structure Request where
  meta : List (Str × Str)
  params : List (Str × Str)
  user : Option User
deriving Repr, DecidableEq

/-- External collaborators, at the interface boundary the source uses:
`validate` is `django.contrib.auth.authenticate(username=..., password=...)`
(arguments may be `None` when a parameter is missing);
`csrf_passes r` is true exactly when
`CsrfViewMiddleware().process_view(request, None, (), {})` returns `None`;
`key_lookup` is `AccessKey.objects.get(key=...)`, `none` meaning
`ObjectDoesNotExist`. -/
structure Env where
  validate : Option Str → Option Str → Option User
  csrf_passes : Request → Bool
  key_lookup : Str → Option User

/-- The two kinds of Python exception the Basic authenticator can let
escape: `typeError` from `base64.b64decode` on bad base64 (Python 2's
`b64decode` converts `binascii.Error` to `TypeError`), `valueError` from
unpacking `decoded.split(':')` into exactly two names. -/
inductive PyError where
  | typeError
  | valueError
deriving Repr, DecidableEq

/-- The terminal failures `AuthenticatorMixin` raises.  The source raises
`HttpError(msg, status=...)` with status constants from `adrest.status`
(not under `src/`; per the spec these are HTTP 401 and HTTP 403), so the
two raise sites are modelled as two constructors. -/
inductive HttpError where
  | unauthorized
  | forbidden
deriving Repr, DecidableEq

/-! ## base64 decoding (Python 2 `base64.b64decode`)

`binascii.a2b_base64` skips characters outside the base64 alphabet,
terminates at a pad `=` occurring at position 2 (when the next significant
character is also `=`) or position 3 of a quad, and raises
`Error("Incorrect padding")` — surfaced by `base64.b64decode` as
`TypeError` — when leftover bits remain at the end. -/

/-- Value of a base64 alphabet character, `none` for characters outside
the alphabet (which `a2b_base64` skips). -/
def b64val (c : Char) : Option Nat :=
  if 'A' ≤ c ∧ c ≤ 'Z' then some (c.toNat - 'A'.toNat)
  else if 'a' ≤ c ∧ c ≤ 'z' then some (c.toNat - 'a'.toNat + 26)
  else if '0' ≤ c ∧ c ≤ '9' then some (c.toNat - '0'.toNat + 52)
  else if c = '+' then some 62
  else if c = '/' then some 63
  else none

/-- First significant character (alphabet member or `=`) of the rest of
the input, as `binascii_find_valid` computes it. -/
def findValid : List Char → Option Char
  | [] => none
  | c :: cs => if (b64val c).isSome ∨ c = '=' then some c else findValid cs

/-- Core decode loop of `binascii.a2b_base64`.  State: accumulated output
bytes (reversed), `leftchar` (pending bit value) and `leftbits`
(number of pending bits, always in {0, 2, 4, 6}; the position in the
current quad is 0, 1, 2, 3 for `leftbits` 0, 6, 4, 2 respectively). -/
def a2bAux : List Char → Nat → Nat → List Nat → Except Unit (List Nat)
  | [], _, leftbits, acc =>
      if leftbits ≠ 0 then Except.error () else Except.ok acc.reverse
  | c :: cs, leftchar, leftbits, acc =>
      if c = '=' then
        if leftbits = 0 ∨ leftbits = 6 then a2bAux cs leftchar leftbits acc
        else if leftbits = 4 ∧ findValid cs ≠ some '=' then
          a2bAux cs leftchar leftbits acc
        else Except.ok acc.reverse
      else
        match b64val c with
        | none => a2bAux cs leftchar leftbits acc
        | some v =>
            let lc := leftchar * 64 + v
            let lb := leftbits + 6
            if lb ≥ 8 then
              a2bAux cs (lc % 2 ^ (lb - 8)) (lb - 8)
                ((lc / 2 ^ (lb - 8) % 256) :: acc)
            else a2bAux cs lc lb acc

/-- `base64.b64decode` on a textual payload, returning the decoded bytes
as characters (Python 2 `str` is a byte string). -/
def b64decode (s : Str) : Except Unit Str :=
  (a2bAux s 0 0 []).map (List.map Char.ofNat)

/-- Python `s.split()`: split on runs of whitespace, dropping empty
pieces. -/
def pySplitWS (s : Str) : List Str :=
  ((List.splitOnP Char.isWhitespace) s).filter (fun p => p ≠ [])

/-- Python `s.split(':')`: split on every colon, keeping empty pieces. -/
def pySplitColon (s : Str) : List Str :=
  (List.splitOnP (fun c => c = ':')) s

/-- Python `s.lower()` for the ASCII scheme keyword comparison. -/
def pyLower (s : Str) : Str :=
  s.map Char.toLower

/-! ## Authenticator variants

Each Python authenticator class is an instance created fresh per request,
with `identifier` initialised to `''` and `authenticate()` returning
`self.get_identifier()` at the end.  Variants that never touch shared
state are modelled as `Request → Str` (identifier result); variants that
write `request.user` return the updated request as well; the Basic
variant, whose body can raise, returns `Except PyError Str`. -/

/-- `AnonimousAuthenticator.get_identifier` (also its `authenticate()`,
inherited from `BaseAuthenticator`):
`request.META.get('REMOTE_ADDR', 'anonymous')`.  No operation in the body
can raise, so the result type is plain `Str`. -/
def AnonimousAuthenticator.get_identifier (req : Request) : Str :=
  (alookup req.meta "REMOTE_ADDR".toList).getD "anonymous".toList

/-- `BasicAuthenticator.authenticate`: read `HTTP_AUTHORIZATION`, split on
whitespace, require exactly two tokens with scheme `basic`
(case-insensitive), base64-decode the payload, unpack `user:pass`,
validate via Django `authenticate`.  The decode and the two-name
unpacking are not wrapped in any `try`, so their exceptions escape. -/
def BasicAuthenticator.authenticate (env : Env) (req : Request) :
    Except PyError Str :=
  match alookup req.meta "HTTP_AUTHORIZATION".toList with
  | none => Except.ok []
  | some hdr =>
      let auth := pySplitWS hdr
      if h2 : auth.length = 2 then
        if pyLower (auth.get ⟨0, by omega⟩) = "basic".toList then
          match b64decode (auth.get ⟨1, by omega⟩) with
          | Except.error _ => Except.error PyError.typeError
          | Except.ok decoded =>
              match pySplitColon decoded with
              | [uname, passwd] =>
                  match env.validate (some uname) (some passwd) with
                  | some user =>
                      if user.is_active then Except.ok user.username
                      else Except.ok []
                  | none => Except.ok []
              | _ => Except.error PyError.valueError
        else Except.ok []
      else Except.ok []

/-- `UserAuthenticator.authenticate`: read `username` / `password` from
`request.REQUEST` (`.get`, so `None` when missing), call Django
`authenticate`, assign the result to `request.user` unconditionally, and
set the identifier to `request.user.username` when `request.user` is
truthy, `''` otherwise.  (The source's `except KeyError` is dead:
`dict.get` never raises `KeyError`.)  Returns (identifier, updated
request). -/
def UserAuthenticator.authenticate (env : Env) (req : Request) :
    Str × Request :=
  let username := alookup req.params "username".toList
  let password := alookup req.params "password".toList
  let u := env.validate username password
  (match u with
   | some user => user.username
   | none => [], { req with user := u })

/-- `UserLoggedInAuthenticator.authenticate`: require a truthy
`request.user` that `is_active`, then pass the CSRF middleware check;
only then the identifier becomes `request.user.username`. -/
def UserLoggedInAuthenticator.authenticate (env : Env) (req : Request) :
    Str :=
  match req.user with
  | none => []
  | some user =>
      if user.is_active then
        if env.csrf_passes req then user.username else []
      else []

/-- `AccessKeyAuthenticator.authenticate`:
`access_key = request.META.get('HTTP_AUTHORIZATION') or request.REQUEST['key']`
— the `or` takes the header when it is truthy (present and non-empty),
otherwise evaluates `request.REQUEST['key']`, whose `KeyError` (when the
parameter is absent) is caught by the surrounding `except`, as is the
token store's `ObjectDoesNotExist`; on a successful lookup `request.user`
is set to the key's user and the identifier to that user's username.
Returns (identifier, updated request). -/
def AccessKeyAuthenticator.authenticate (env : Env) (req : Request) :
    Str × Request :=
  let hdr := alookup req.meta "HTTP_AUTHORIZATION".toList
  let access_key : Option Str :=
    match hdr with
    | some h => if h ≠ [] then some h else alookup req.params "key".toList
    | none => alookup req.params "key".toList
  match access_key with
  | none => ([], req)
  | some k =>
      match env.key_lookup k with
      | none => ([], req)
      | some user => (user.username, { req with user := some user })

/-! ## The chain resolver (`AuthenticatorMixin.authenticate`)

`self.authenticators` is an arbitrary sequence of authenticator classes.
A configured class is modelled abstractly as a `Variant`: instantiating
it on the request and calling `authenticate()` is `run` (its identifier
result plus the possibly-updated request — `request` is shared state, so
a failing variant's writes are seen by later variants), and its static
`test_rights(resource, method)` predicate is `test_rights`
(`BaseAuthenticator`'s default is `fun _ _ => true`). -/

/-- A domain entity type as `check_rights` consumes it: only
`m._meta.module_name` is read. -/
structure Model where
  module_name : Str
deriving Repr, DecidableEq

/-- One configured authenticator variant (a class in the
`self.authenticators` tuple). -/
structure Variant where
  run : Request → Str × Request
  test_rights : Model → Str → Bool

/-- The active Authentication Context `self.auth`: the successful
authenticator instance.  `idx` is its position in the configured list,
`identifier` the value its `authenticate()` returned (stored in the
instance), `variant` the class it instantiates. -/
structure ActiveAuth where
  idx : Nat
  identifier : Str
  variant : Variant

/-- The `for` loop of `AuthenticatorMixin.authenticate`, instrumented
with the list of invoked variant positions (the trace): returns the
context produced by the first variant with a truthy result (`none` when
the list is exhausted), the request after all invoked variants ran, and
the trace. -/
def chainAux : List Variant → Nat → Request →
    Option ActiveAuth × Request × List Nat
  | [], _, req => (none, req, [])
  | v :: rest, i, req =>
      let r := v.run req
      if r.1 ≠ [] then (some ⟨i, r.1, v⟩, r.2, [i])
      else
        let t := chainAux rest (i + 1) r.2
        (t.1, t.2.1, i :: t.2.2)

/-- Outcome of one `AuthenticatorMixin.authenticate` call: the returned
identifier or the raised `HttpError`, the final `self.auth` field, the
final request, and the trace of invoked variant positions. -/
structure MixinResult where
  result : Except HttpError Str
  auth : Option ActiveAuth
  request : Request
  trace : List Nat

/-- `AuthenticatorMixin.authenticate`: iterate the configured variants in
order; on the first truthy result assign `self.auth` and return the
identifier; if the loop is exhausted, the `for`/`else` raises
`HttpError("Authorization required.", status=HTTP_401_UNAUTHORIZED)` and
`self.auth` keeps its prior value `auth0` (no assignment on that path). -/
def AuthenticatorMixin.authenticate (vs : List Variant)
    (auth0 : Option ActiveAuth) (req : Request) : MixinResult :=
  match chainAux vs 0 req with
  | (some ctx, req2, tr) => ⟨Except.ok ctx.identifier, some ctx, req2, tr⟩
  | (none, req2, tr) => ⟨Except.error HttpError.unauthorized, auth0, req2, tr⟩

/-! ## The rights gate (`AuthenticatorMixin.check_rights`) -/

/-- The `for mr in mresources` loop of `check_rights`, instrumented with
the list of models on which `test_rights` was evaluated: asserting a
false `test_rights` raises
`HttpError("You cannot do it.", status=HTTP_403_FORBIDDEN)` and stops. -/
def checkRightsAux (t : Model → Str → Bool) (method : Str) :
    List Model → Except HttpError Bool × List Model
  | [] => (Except.ok true, [])
  | m :: rest =>
      if t m method then
        let r := checkRightsAux t method rest
        (r.1, m :: r.2)
      else (Except.error HttpError.forbidden, [m])

/-- `AuthenticatorMixin.check_rights`: when `self.auth` is truthy, filter
`self.meta.models` down to those whose `module_name` has a truthy entry
in the `resources` dict, and assert the active instance's `test_rights`
on each in order; when `self.auth` is falsy, do nothing and
`return True`.  Returns the outcome plus the evaluation trace. -/
def AuthenticatorMixin.check_rights (auth : Option ActiveAuth)
    (models : List Model) (resources : Str → Bool) (method : Str) :
    Except HttpError Bool × List Model :=
  match auth with
  | some a =>
      checkRightsAux a.variant.test_rights method
        (models.filter (fun m => resources m.module_name))
  | none => (Except.ok true, [])

/-! ## Helper notions for the chain theorems -/

/-- Every variant in the list, run in order with the request threaded
through, yields a falsy (empty) identifier. -/
def allFail : List Variant → Request → Bool
  | [], _ => true
  | v :: vs, req => (v.run req).1.isEmpty && allFail vs (v.run req).2

/-- The request after running every variant of the list in order. -/
def runAll : List Variant → Request → Request
  | [], req => req
  | v :: vs, req => runAll vs (v.run req).2

/-! ## Variant wrappers for the concrete authenticator classes

The default configuration on the mixin is `authenticators =
AnonimousAuthenticator,`.  These wrappers connect the concrete classes to
the abstract `Variant` record used by the resolver (all of them inherit
`BaseAuthenticator.test_rights`, which always permits).  The Basic
variant is not wrapped: its `authenticate()` can raise, which would
escape the resolver (the `for` loop has no `try`). -/

/-- `AnonimousAuthenticator` as a configured variant. -/
def anonVariant : Variant :=
  ⟨fun req => (AnonimousAuthenticator.get_identifier req, req), fun _ _ => true⟩

/-- `UserAuthenticator` as a configured variant (it writes
`request.user`). -/
def userVariant (env : Env) : Variant :=
  ⟨UserAuthenticator.authenticate env, fun _ _ => true⟩

/-- `UserLoggedInAuthenticator` as a configured variant. -/
def userLoggedInVariant (env : Env) : Variant :=
  ⟨fun req => (UserLoggedInAuthenticator.authenticate env req, req), fun _ _ => true⟩

/-- `AccessKeyAuthenticator` as a configured variant (it writes
`request.user`). -/
def accessKeyVariant (env : Env) : Variant :=
  ⟨AccessKeyAuthenticator.authenticate env, fun _ _ => true⟩

/-! ## Concrete instances for witnesses and counterexamples -/

/-- An environment whose credential validator rejects everything, whose
CSRF check passes, and whose token store is empty. -/
def envNoUsers : Env := ⟨fun _ _ => none, fun _ => true, fun _ => none⟩

/-- A request with no headers, no parameters and no pre-attached user. -/
def reqEmpty : Request := ⟨[], [], none⟩

/-- A request whose basic-auth header carries `QQ`, a base64 payload with
incorrect padding (2 data characters, no pad): Python 2's `b64decode`
raises on it. -/
def reqBadB64 : Request :=
  ⟨[("HTTP_AUTHORIZATION".toList, "basic QQ".toList)], [], none⟩

/-- A request whose authorization header uses the `Bearer` scheme rather
than `basic`. -/
def reqBearer : Request := ⟨[("HTTP_AUTHORIZATION".toList, "Bearer xyz".toList)], [], none⟩

/-- A request whose `REMOTE_ADDR` entry is present but empty. -/
def reqEmptyAddr : Request := ⟨[("REMOTE_ADDR".toList, [])], [], none⟩

/-- An active user whose username is the empty string. -/
def userBlank : User := ⟨[], true⟩

/-- A request carrying `userBlank` as its pre-attached principal. -/
def reqBlankUser : Request := ⟨[], [], some userBlank⟩

/-- An active user named `bob`. -/
def userBob : User := ⟨"bob".toList, true⟩

/-- A request carrying `userBob` as its pre-attached principal. -/
def reqBob : Request := ⟨[], [], some userBob⟩

/-- A principal attached by earlier middleware. -/
def userPrior : User := ⟨"prior".toList, true⟩

/-- A request with `username`/`password` parameters and `userPrior`
pre-attached. -/
def reqCreds : Request :=
  ⟨[], [("username".toList, "u".toList), ("password".toList, "p".toList)],
   some userPrior⟩

/-- A prior Authentication Context, used to observe that a failing
`authenticate` call leaves `self.auth` untouched. -/
def priorCtx : ActiveAuth := ⟨5, "prior".toList, anonVariant⟩

/-- The user behind the stored access key. -/
def userKey : User := ⟨"keyuser".toList, true⟩

/-- An environment whose token store holds exactly the key `secret`. -/
def envKeyed : Env :=
  ⟨fun _ _ => none, fun _ => true,
   fun k => if k = "secret".toList then some userKey else none⟩

/-- A request presenting both a non-empty authorization header (`secret`)
and a `key` query parameter (`other`). -/
def reqBoth : Request :=
  ⟨[("HTTP_AUTHORIZATION".toList, "secret".toList)],
   [("key".toList, "other".toList)], none⟩

/-- Domain models for the rights-checker witnesses. -/
def mdlA : Model := ⟨"alpha".toList⟩

/-- The model the witness context denies. -/
def mdlBad : Model := ⟨"bad".toList⟩

/-- A model listed after the denied one. -/
def mdlZ : Model := ⟨"zeta".toList⟩

/-- A variant whose rights predicate denies exactly the model named
`bad`. -/
def denyBadVariant : Variant :=
  ⟨fun req => ([], req), fun m _ => decide (m.module_name ≠ "bad".toList)⟩

/-- An active context built from `denyBadVariant`. -/
def ctxDenyBad : ActiveAuth := ⟨0, "admin".toList, denyBadVariant⟩

/-! ## Helper lemmas -/

/-- Running the chain over a list whose first block of variants all fail
invokes each of them exactly once, threads the request through them, and
continues with the rest of the list at the shifted position. -/
theorem chainAux_allFail (pre rest : List Variant) (i : Nat) (req : Request)
    (h : allFail pre req = true) :
    chainAux (pre ++ rest) i req =
      ((chainAux rest (i + pre.length) (runAll pre req)).1,
       (chainAux rest (i + pre.length) (runAll pre req)).2.1,
       List.range' i pre.length ++
         (chainAux rest (i + pre.length) (runAll pre req)).2.2) := by
  induction pre generalizing i req with
  | nil => simp [runAll, List.range']
  | cons v vs ih =>
      rw [allFail, Bool.and_eq_true, List.isEmpty_iff] at h
      obtain ⟨h1, h2⟩ := h
      have step : chainAux (v :: (vs ++ rest)) i req =
          ((chainAux (vs ++ rest) (i + 1) (v.run req).2).1,
           (chainAux (vs ++ rest) (i + 1) (v.run req).2).2.1,
           i :: (chainAux (vs ++ rest) (i + 1) (v.run req).2).2.2) := by
        simp [chainAux, h1]
      have hlen : i + (v :: vs).length = (i + 1) + vs.length := by
        simp [List.length_cons]; omega
      have hrun : runAll (v :: vs) req = runAll vs (v.run req).2 := rfl
      rw [List.cons_append, step, ih (i + 1) (v.run req).2 h2, hrun, hlen]
      simp [List.range'_succ]

/-- The rights loop succeeds when the predicate holds on every listed
model, evaluating all of them. -/
theorem checkRightsAux_all_true (t : Model → Str → Bool) (method : Str)
    (l : List Model) (h : ∀ m ∈ l, t m method = true) :
    checkRightsAux t method l = (Except.ok true, l) := by
  induction l with
  | nil => rfl
  | cons m rest ih =>
      have hm := h m (List.mem_cons_self m rest)
      simp [checkRightsAux, hm, ih (fun x hx => h x (List.mem_cons_of_mem m hx))]

/-- The rights loop stops at the first model the predicate denies,
raising `forbidden` and evaluating nothing past it. -/
theorem checkRightsAux_first_false (t : Model → Str → Bool) (method : Str)
    (pre : List Model) (m : Model) (post : List Model)
    (hpre : ∀ x ∈ pre, t x method = true) (hm : t m method = false) :
    checkRightsAux t method (pre ++ m :: post) =
      (Except.error HttpError.forbidden, pre ++ [m]) := by
  induction pre with
  | nil => simp [checkRightsAux, hm]
  | cons p rest ih =>
      have hp := hpre p (List.mem_cons_self p rest)
      simp [checkRightsAux, hp,
        ih (fun x hx => hpre x (List.mem_cons_of_mem p hx))]

/-! ## Claim theorems -/

/-- C1, counterexample: with no active Authentication Context
(`self.auth` unset), `check_rights` on a non-empty resource set does NOT
produce the `Forbidden` failure the claim demands — the `if self.auth:`
guard skips the whole check and the method returns `True` (allow). -/
theorem check_rights_no_auth_allows_cex :
    AuthenticatorMixin.check_rights none [⟨"pirate".toList⟩] (fun _ => true)
      "get".toList = (Except.ok true, []) ∧
    (Except.ok true : Except HttpError Bool) ≠ Except.error HttpError.forbidden :=
  ⟨rfl, by simp⟩

/-- C1, amended: for every resource set S and method M, if `check_rights`
is invoked while no Authentication Context is active, the check is
skipped entirely — no rights are evaluated and the call returns normally
(allows), regardless of S and M. -/
theorem check_rights_no_auth_allows (models : List Model)
    (resources : Str → Bool) (method : Str) :
    AuthenticatorMixin.check_rights none models resources method =
      (Except.ok true, []) := rfl

/-- C2, counterexample: on a basic-auth header with correct scheme and
token count but a bad base64 payload (`basic QQ`, incorrect padding), the
Basic authenticator does not return the empty identifier — the decode
error propagates out of `authenticate()` as a `TypeError`. -/
theorem basic_auth_bad_base64_raises_cex :
    BasicAuthenticator.authenticate envNoUsers reqBadB64 =
      Except.error PyError.typeError ∧
    (Except.error PyError.typeError : Except PyError Str) ≠ Except.ok [] :=
  ⟨rfl, by simp⟩

/-- C2, amended: for a present basic-auth header, a wrong token count or
a wrong scheme keyword yields the empty identifier without raising; but a
bad base64 payload is NOT swallowed — `base64.b64decode` is outside any
`try`, so its `TypeError` propagates out of the variant. -/
theorem basic_auth_malformed_header (env : Env) (req : Request) (hdr : Str)
    (hhdr : alookup req.meta "HTTP_AUTHORIZATION".toList = some hdr) :
    ((pySplitWS hdr).length ≠ 2 →
        BasicAuthenticator.authenticate env req = Except.ok []) ∧
    (∀ h2 : (pySplitWS hdr).length = 2,
        pyLower ((pySplitWS hdr).get ⟨0, by omega⟩) ≠ "basic".toList →
        BasicAuthenticator.authenticate env req = Except.ok []) ∧
    (∀ h2 : (pySplitWS hdr).length = 2,
        pyLower ((pySplitWS hdr).get ⟨0, by omega⟩) = "basic".toList →
        b64decode ((pySplitWS hdr).get ⟨1, by omega⟩) = Except.error () →
        BasicAuthenticator.authenticate env req = Except.error PyError.typeError) := by
  refine ⟨?_, ?_, ?_⟩
  · intro hlen
    unfold BasicAuthenticator.authenticate
    rw [hhdr]
    simp [hlen]
  · intro h2 hsch
    unfold BasicAuthenticator.authenticate
    rw [hhdr]
    simp only [List.get_eq_getElem] at hsch
    have hsch2 : pyLower (pySplitWS hdr)[0] ≠ ['b', 'a', 's', 'i', 'c'] := by
      simpa using hsch
    simp [h2, hsch2]
  · intro h2 hsch hb
    unfold BasicAuthenticator.authenticate
    rw [hhdr]
    simp only [List.get_eq_getElem] at hsch hb
    simp [h2, hsch, hb]

/-- C2, witness: a header with the `Bearer` scheme keyword makes the
Basic authenticator return the empty identifier without raising. -/
theorem basic_auth_malformed_header_witness :
    BasicAuthenticator.authenticate envNoUsers reqBearer = Except.ok [] :=
  (basic_auth_malformed_header envNoUsers reqBearer "Bearer xyz".toList rfl).2.1
    (by decide) (by decide)

/-- C3: when every variant before position `pre.length` fails on the
threaded request and the variant `v` at that position succeeds, the
resolver returns exactly `v`'s identifier, records exactly that instance
(position, identifier and class) as the active Authentication Context,
and the invocation trace is `[0, ..., pre.length]` — every earlier
variant once, the successful one once, and none of the variants after
it. -/
theorem authenticate_first_success (pre post : List Variant) (v : Variant)
    (auth0 : Option ActiveAuth) (req : Request)
    (h1 : allFail pre req = true)
    (h2 : (v.run (runAll pre req)).1 ≠ []) :
    (AuthenticatorMixin.authenticate (pre ++ v :: post) auth0 req).result =
        Except.ok (v.run (runAll pre req)).1 ∧
    (AuthenticatorMixin.authenticate (pre ++ v :: post) auth0 req).auth =
        some ⟨pre.length, (v.run (runAll pre req)).1, v⟩ ∧
    (AuthenticatorMixin.authenticate (pre ++ v :: post) auth0 req).trace =
        List.range (pre.length + 1) := by
  have hsucc : chainAux (v :: post) pre.length (runAll pre req) =
      (some ⟨pre.length, (v.run (runAll pre req)).1, v⟩,
       (v.run (runAll pre req)).2, [pre.length]) := by
    simp [chainAux, h2]
  have hchain := chainAux_allFail pre (v :: post) 0 req h1
  rw [Nat.zero_add] at hchain
  rw [hsucc] at hchain
  unfold AuthenticatorMixin.authenticate
  rw [hchain]
  refine ⟨rfl, rfl, ?_⟩
  show List.range' 0 pre.length ++ [pre.length] = List.range (pre.length + 1)
  rw [List.range_succ, List.range_eq_range']

/-- C3, witness: with the list [UserAuthenticator, AnonimousAuthenticator]
on a request with no credentials, the first variant fails, the second
succeeds with the fallback identifier `anonymous`, and both are invoked
exactly once in order. -/
theorem authenticate_first_success_witness :
    allFail [userVariant envNoUsers] reqEmpty = true ∧
    (anonVariant.run (runAll [userVariant envNoUsers] reqEmpty)).1 ≠ [] ∧
    (AuthenticatorMixin.authenticate ([userVariant envNoUsers] ++ anonVariant :: [])
        none reqEmpty).result = Except.ok "anonymous".toList ∧
    (AuthenticatorMixin.authenticate ([userVariant envNoUsers] ++ anonVariant :: [])
        none reqEmpty).trace = [0, 1] :=
  ⟨by decide, by decide,
   (authenticate_first_success [userVariant envNoUsers] [] anonVariant none reqEmpty
      (by decide) (by decide)).1,
   (authenticate_first_success [userVariant envNoUsers] [] anonVariant none reqEmpty
      (by decide) (by decide)).2.2⟩

/-- C4: when every configured variant fails on the threaded request, the
resolver raises the 401 `Unauthorized` failure, and the invocation trace
is `[0, ..., n-1]` with no duplicates — no variant is invoked more than
once. -/
theorem authenticate_all_fail_unauthorized (vs : List Variant)
    (auth0 : Option ActiveAuth) (req : Request)
    (h : allFail vs req = true) :
    (AuthenticatorMixin.authenticate vs auth0 req).result =
        Except.error HttpError.unauthorized ∧
    (AuthenticatorMixin.authenticate vs auth0 req).trace =
        List.range vs.length ∧
    (AuthenticatorMixin.authenticate vs auth0 req).trace.Nodup := by
  have hchain := chainAux_allFail vs [] 0 req h
  rw [Nat.zero_add] at hchain
  simp only [List.append_nil] at hchain
  have hnil : chainAux [] vs.length (runAll vs req) =
      (none, runAll vs req, []) := rfl
  rw [hnil] at hchain
  unfold AuthenticatorMixin.authenticate
  rw [hchain]
  refine ⟨rfl, ?_, ?_⟩
  · show List.range' 0 vs.length ++ [] = List.range vs.length
    rw [List.append_nil, List.range_eq_range']
  · show (List.range' 0 vs.length ++ []).Nodup
    rw [List.append_nil, ← List.range_eq_range']
    exact List.nodup_range _

/-- C4, witness: a single all-rejecting credential variant on an empty
request makes `authenticate` raise the 401 failure. -/
theorem authenticate_all_fail_unauthorized_witness :
    allFail [userVariant envNoUsers] reqEmpty = true ∧
    (AuthenticatorMixin.authenticate [userVariant envNoUsers] none reqEmpty).result =
      Except.error HttpError.unauthorized :=
  ⟨by decide,
   (authenticate_all_fail_unauthorized [userVariant envNoUsers] none reqEmpty
      (by decide)).1⟩

/-- C5: with an active Authentication Context, if `test_rights` holds for
every relevant model (those in `meta.models` whose `module_name` is
truthy in the `resources` dict), `check_rights` allows and evaluates
exactly the relevant models; if the relevant list splits as
`pre ++ m :: post` with every model of `pre` permitted and `m` denied,
`check_rights` raises `Forbidden` and the evaluation trace is
`pre ++ [m]` — nothing after the first denial is evaluated. -/
theorem check_rights_active_short_circuit (a : ActiveAuth)
    (models : List Model) (resources : Str → Bool) (method : Str) :
    ((∀ m ∈ models.filter (fun m => resources m.module_name),
        a.variant.test_rights m method = true) →
      AuthenticatorMixin.check_rights (some a) models resources method =
        (Except.ok true, models.filter (fun m => resources m.module_name))) ∧
    (∀ pre m post,
      models.filter (fun m => resources m.module_name) = pre ++ m :: post →
      (∀ x ∈ pre, a.variant.test_rights x method = true) →
      a.variant.test_rights m method = false →
      AuthenticatorMixin.check_rights (some a) models resources method =
        (Except.error HttpError.forbidden, pre ++ [m])) := by
  constructor
  · intro h
    show checkRightsAux _ _ _ = _
    exact checkRightsAux_all_true _ _ _ h
  · intro pre m post heq hpre hm
    show checkRightsAux _ _ _ = _
    rw [heq]
    exact checkRightsAux_first_false _ _ pre m post hpre hm

/-- C5, witness: a context denying exactly the model `bad`, on the
relevant list `[alpha, bad, zeta]`, raises `Forbidden` after evaluating
only `[alpha, bad]` — `zeta` is never evaluated. -/
theorem check_rights_active_short_circuit_witness :
    AuthenticatorMixin.check_rights (some ctxDenyBad) [mdlA, mdlBad, mdlZ]
      (fun _ => true) "get".toList =
      (Except.error HttpError.forbidden, [mdlA, mdlBad]) :=
  (check_rights_active_short_circuit ctxDenyBad [mdlA, mdlBad, mdlZ]
      (fun _ => true) "get".toList).2
    [mdlA] mdlBad [mdlZ] (by decide) (by decide) (by decide)

/-- C6, counterexample: a request whose `REMOTE_ADDR` entry is present
but empty does not lack the entry, yet the Anonymous authenticator's
identifier is the empty string — the variant can fail, contradicting
"never yields an empty identifier". -/
theorem anonymous_empty_remote_addr_cex :
    alookup reqEmptyAddr.meta "REMOTE_ADDR".toList = some [] ∧
    AnonimousAuthenticator.get_identifier reqEmptyAddr = [] := by decide

/-- C6, amended: the Anonymous authenticator returns the `REMOTE_ADDR`
value when the entry is present and the fallback literal `anonymous` when
it is absent; it never raises (its body is total); its identifier is
empty exactly when `REMOTE_ADDR` is present with an empty value. -/
theorem anonymous_identifier_spec (req : Request) :
    (∀ v, alookup req.meta "REMOTE_ADDR".toList = some v →
        AnonimousAuthenticator.get_identifier req = v) ∧
    (alookup req.meta "REMOTE_ADDR".toList = none →
        AnonimousAuthenticator.get_identifier req = "anonymous".toList) ∧
    (AnonimousAuthenticator.get_identifier req = [] ↔
        alookup req.meta "REMOTE_ADDR".toList = some []) := by
  refine ⟨?_, ?_, ?_⟩
  · intro v hv
    unfold AnonimousAuthenticator.get_identifier
    rw [hv, Option.getD_some]
  · intro hv
    unfold AnonimousAuthenticator.get_identifier
    rw [hv, Option.getD_none]
  · unfold AnonimousAuthenticator.get_identifier
    cases h : alookup req.meta "REMOTE_ADDR".toList with
    | none => simp [h]
    | some v => simp [h]

/-- C6, witness: on a request with no `REMOTE_ADDR` entry the Anonymous
authenticator returns the fallback literal. -/
theorem anonymous_identifier_spec_witness :
    AnonimousAuthenticator.get_identifier reqEmpty = "anonymous".toList :=
  (anonymous_identifier_spec reqEmpty).2.1 rfl

/-- C7, counterexample: an active pre-attached principal whose username
is the empty string passes all three conditions (principal present,
active, CSRF passes) yet the Session-based authenticator's identifier is
empty — "non-empty identifier exactly when the conditions hold" fails. -/
theorem logged_in_blank_username_cex :
    reqBlankUser.user = some userBlank ∧
    userBlank.is_active = true ∧
    envNoUsers.csrf_passes reqBlankUser = true ∧
    UserLoggedInAuthenticator.authenticate envNoUsers reqBlankUser = [] :=
  ⟨rfl, rfl, rfl, rfl⟩

/-- C7, amended: the Session-based authenticator returns the principal's
username when a principal is pre-attached, active, and the CSRF check
passes, and the empty identifier otherwise; its identifier is non-empty
exactly when those three conditions hold AND the username itself is
non-empty. -/
theorem logged_in_identifier_spec (env : Env) (req : Request) :
    (∀ u, req.user = some u → u.is_active = true → env.csrf_passes req = true →
        UserLoggedInAuthenticator.authenticate env req = u.username) ∧
    (UserLoggedInAuthenticator.authenticate env req ≠ [] ↔
        ∃ u, req.user = some u ∧ u.is_active = true ∧
          env.csrf_passes req = true ∧ u.username ≠ []) := by
  constructor
  · intro u hu ha hc
    simp [UserLoggedInAuthenticator.authenticate, hu, ha, hc]
  · unfold UserLoggedInAuthenticator.authenticate
    cases hu : req.user with
    | none => simp
    | some u =>
        cases ha : u.is_active with
        | false => simp [ha]
        | true =>
            cases hc : env.csrf_passes req with
            | false => simp [ha, hc]
            | true => simp [ha, hc]

/-- C7, witness: an active principal named `bob` with a passing CSRF
check authenticates as `bob`. -/
theorem logged_in_identifier_spec_witness :
    UserLoggedInAuthenticator.authenticate envNoUsers reqBob = "bob".toList :=
  (logged_in_identifier_spec envNoUsers reqBob).1 userBob rfl rfl rfl

/-- C8: when every configured variant fails, `authenticate` raises the
401 failure and the `self.auth` field keeps whatever value it had before
the call — the failure path contains no assignment to it. -/
theorem authenticate_failure_preserves_auth (vs : List Variant)
    (auth0 : Option ActiveAuth) (req : Request)
    (h : allFail vs req = true) :
    (AuthenticatorMixin.authenticate vs auth0 req).auth = auth0 ∧
    (AuthenticatorMixin.authenticate vs auth0 req).result =
        Except.error HttpError.unauthorized := by
  have hchain := chainAux_allFail vs [] 0 req h
  rw [Nat.zero_add] at hchain
  simp only [List.append_nil] at hchain
  have hnil : chainAux [] vs.length (runAll vs req) =
      (none, runAll vs req, []) := rfl
  rw [hnil] at hchain
  unfold AuthenticatorMixin.authenticate
  rw [hchain]
  exact ⟨rfl, rfl⟩

/-- C8, witness: a failing attempt leaves a previously recorded
Authentication Context in place. -/
theorem authenticate_failure_preserves_auth_witness :
    allFail [userVariant envNoUsers] reqEmpty = true ∧
    (AuthenticatorMixin.authenticate [userVariant envNoUsers] (some priorCtx)
        reqEmpty).auth = some priorCtx :=
  ⟨by decide,
   (authenticate_failure_preserves_auth [userVariant envNoUsers] (some priorCtx)
      reqEmpty (by decide)).1⟩

/-- C9: when the request carries both `username` and `password`
parameters and the credential validator rejects them, the
Parameter-credential authenticator still assigns the validator's result
to `request.user` — so the slot is overwritten with `None`, discarding
any previously attached principal — and the identifier is empty. -/
theorem user_auth_overwrites_request_user (env : Env) (req : Request)
    (un pw : Str)
    (hu : alookup req.params "username".toList = some un)
    (hp : alookup req.params "password".toList = some pw)
    (hrej : env.validate (some un) (some pw) = none) :
    (UserAuthenticator.authenticate env req).2.user = none ∧
    (UserAuthenticator.authenticate env req).1 = [] := by
  unfold UserAuthenticator.authenticate
  rw [hu, hp]
  simp [hrej]

/-- C9, witness: a request with rejected credentials and a pre-attached
principal `prior` ends the call with `request.user = None`. -/
theorem user_auth_overwrites_request_user_witness :
    reqCreds.user = some userPrior ∧
    (UserAuthenticator.authenticate envNoUsers reqCreds).2.user = none :=
  ⟨rfl,
   (user_auth_overwrites_request_user envNoUsers reqCreds "u".toList "p".toList
      rfl rfl rfl).1⟩

/-- C10: when the request presents a non-empty authorization header, the
Token-based authenticator's outcome is the token-store lookup of the
header value — and is unchanged under any replacement of the request's
parameter bag, so the `key` query parameter is not consulted; when the
header is absent or empty, the outcome is driven by the `key` query
parameter instead. -/
theorem access_key_header_priority (env : Env) (req : Request) :
    (∀ h, alookup req.meta "HTTP_AUTHORIZATION".toList = some h → h ≠ [] →
      (AccessKeyAuthenticator.authenticate env req =
        match env.key_lookup h with
        | none => ([], req)
        | some user => (user.username, { req with user := some user })) ∧
      (∀ ps, (AccessKeyAuthenticator.authenticate env
          { req with params := ps }).1 =
        (AccessKeyAuthenticator.authenticate env req).1)) ∧
    (alookup req.meta "HTTP_AUTHORIZATION".toList = none ∨
      alookup req.meta "HTTP_AUTHORIZATION".toList = some [] →
      AccessKeyAuthenticator.authenticate env req =
        match alookup req.params "key".toList with
        | none => ([], req)
        | some k =>
            match env.key_lookup k with
            | none => ([], req)
            | some user => (user.username, { req with user := some user })) := by
  constructor
  · intro h hh hne
    have hbody : AccessKeyAuthenticator.authenticate env req =
        match env.key_lookup h with
        | none => ([], req)
        | some user => (user.username, { req with user := some user }) := by
      unfold AccessKeyAuthenticator.authenticate
      rw [hh]
      simp [hne]
    refine ⟨hbody, ?_⟩
    intro ps
    have hbody2 : AccessKeyAuthenticator.authenticate env { req with params := ps } =
        match env.key_lookup h with
        | none => ([], { req with params := ps })
        | some user =>
            (user.username, { req with params := ps, user := some user }) := by
      unfold AccessKeyAuthenticator.authenticate
      rw [show alookup ({ req with params := ps } : Request).meta
            "HTTP_AUTHORIZATION".toList = some h from hh]
      simp [hne]
    rw [hbody, hbody2]
    cases env.key_lookup h with
    | none => rfl
    | some user => rfl
  · intro hcase
    unfold AccessKeyAuthenticator.authenticate
    cases hcase with
    | inl hnone => rw [hnone]
    | inr hempty =>
        rw [hempty]
        simp

/-- C10, witness: with header `secret` (a stored key) and query
parameter `key=other` (not stored), the identifier is the header key's
user — the query parameter is ignored. -/
theorem access_key_header_priority_witness :
    (AccessKeyAuthenticator.authenticate envKeyed reqBoth).1 = "keyuser".toList := by
  have h := ((access_key_header_priority envKeyed reqBoth).1 "secret".toList rfl
    (by decide)).1
  rw [h]
  rfl
